import Mathlib

/-!
Shallow embedding of the ChatBot-RAG retrieval core
(`database.py`, `embeddings.py`, `retriever.py`).

Modelling conventions:
* Stored float32 embeddings are modelled at the bit level as 32-bit words
  (`Nat` below `2 ^ 32`), since the persistence layer (`tobytes` /
  `np.frombuffer`) only moves bits (little-endian, 4 bytes per value).
* The SQLite store is modelled as an explicit record of table contents plus
  the AUTOINCREMENT counters; every operation of `DatabaseManager` becomes a
  pure state transformer (each Python method is one lock-protected
  transaction on a fresh connection, so it is atomic with respect to the
  other operations).
* Timestamps (`CURRENT_TIMESTAMP`) are environmental inputs and are passed
  as explicit arguments where a row stores one.
-/

/-! ### Binary embedding encoding (`embedding.tobytes()` / `np.frombuffer`) -/

/-- Little-endian byte encoding of one 32-bit word (one float32 value),
as produced for each array element by `numpy.ndarray.tobytes`. -/
def floatToBytes (w : ℕ) : List ℕ :=
  [w % 256, w / 256 % 256, w / 65536 % 256, w / 16777216 % 256]

/-- Byte encoding of a whole embedding vector: the concatenation of the
encodings of its float32 elements (`embedding.tobytes()`). -/
def embeddingToBytes : List ℕ → List ℕ
  | [] => []
  | w :: ws => floatToBytes w ++ embeddingToBytes ws

/-- Decoding of a byte string back into 32-bit words, as done by
`np.frombuffer(embedding_bytes, dtype=np.float32)`; a buffer whose length is
not a multiple of the 4-byte item size makes `frombuffer` raise. -/
def bytesToFloats : List ℕ → Except String (List ℕ)
  | [] => .ok []
  | b0 :: b1 :: b2 :: b3 :: rest => do
      let ws ← bytesToFloats rest
      .ok ((b0 + 256 * b1 + 65536 * b2 + 16777216 * b3) :: ws)
  | _ => .error "buffer size must be a multiple of element size"

/-! ### The SQLite store (`DatabaseManager`) -/

/-- State of the SQLite database created by `DatabaseManager._init_database`:
the `documents`, `chunks` and `chats` tables (rows in insertion order, which
is the order a bare `SELECT` returns) plus the AUTOINCREMENT counters.
`documents` rows are `(doc_id, file_name, uploaded_at)`, `chunks` rows are
`(chunk_id, doc_id, text, embedding BLOB)`, `chats` rows are
`(user_input, bot_output, timestamp)`. -/
structure DBState where
  documents : List (ℕ × String × ℕ)
  chunks : List (ℕ × ℕ × String × List ℕ)
  chats : List (String × String × ℕ)
  next_doc_id : ℕ
  next_chunk_id : ℕ
deriving DecidableEq

/-- Freshly initialised database: empty tables, AUTOINCREMENT starts at 1. -/
def init_database : DBState :=
  { documents := [], chunks := [], chats := [], next_doc_id := 1, next_chunk_id := 1 }

/-- `DatabaseManager.add_document`: inserts a document row and returns its
fresh id. `now` is the environmental `CURRENT_TIMESTAMP`. -/
def add_document (s : DBState) (file_name : String) (now : ℕ) : ℕ × DBState :=
  (s.next_doc_id,
   { s with
      documents := s.documents ++ [(s.next_doc_id, file_name, now)]
      next_doc_id := s.next_doc_id + 1 })

/-- `DatabaseManager.add_chunk`: stores a chunk row whose BLOB column is
`embedding.tobytes()`. The declared FOREIGN KEY is not enforced (the code
never issues `PRAGMA foreign_keys = ON`, and SQLite defaults to OFF), so no
existence check on `doc_id` happens. -/
def add_chunk (s : DBState) (doc_id : ℕ) (text : String) (embedding : List ℕ) : DBState :=
  { s with
      chunks := s.chunks ++ [(s.next_chunk_id, doc_id, text, embeddingToBytes embedding)]
      next_chunk_id := s.next_chunk_id + 1 }

/-- `DatabaseManager.add_chat`. -/
def add_chat (s : DBState) (user_input bot_output : String) (now : ℕ) : DBState :=
  { s with chats := s.chats ++ [(user_input, bot_output, now)] }

/-- Decoding loop shared by `get_all_chunks` and `get_document_chunks`:
each fetched row `(chunk_id, text, embedding_bytes)` has its BLOB turned
back into a float vector by `np.frombuffer`. -/
def decodeChunkRows : List (ℕ × ℕ × String × List ℕ) → Except String (List (ℕ × String × List ℕ))
  | [] => .ok []
  | c :: rest => do
      let e ← bytesToFloats c.2.2.2
      let tail ← decodeChunkRows rest
      .ok ((c.1, c.2.2.1, e) :: tail)

/-- `DatabaseManager.get_all_chunks`: `SELECT chunk_id, text, embedding FROM
chunks` followed by `np.frombuffer` on each row. -/
def get_all_chunks (s : DBState) : Except String (List (ℕ × String × List ℕ)) :=
  decodeChunkRows s.chunks

/-- `DatabaseManager.get_document_chunks`: same, restricted by
`WHERE doc_id = ?`. -/
def get_document_chunks (s : DBState) (doc_id : ℕ) : Except String (List (ℕ × String × List ℕ)) :=
  decodeChunkRows (s.chunks.filter (fun c => c.2.1 == doc_id))

/-- `DatabaseManager.delete_document`: deletes the chunk rows first (the
comment in the source cites the foreign-key constraint), then the document
row, in one lock-protected transaction committed at the end. -/
def delete_document (s : DBState) (doc_id : ℕ) : DBState :=
  let afterChunks := { s with chunks := s.chunks.filter (fun c => c.2.1 != doc_id) }
  { afterChunks with documents := afterChunks.documents.filter (fun d => d.1 != doc_id) }

/-! ### Context assembly (`Retriever.build_context_from_chunks`)

The assembler does no arithmetic on scores, it only renders them, so its
scores are modelled as exact rationals (every float value is one). -/

/-- Zero-padded three-digit rendering of a number below 1000. -/
def pad3 (n : ℕ) : String :=
  if n < 10 then "00" ++ toString n
  else if n < 100 then "0" ++ toString n
  else toString n

/-- Round-half-even integer rounding, the rounding Python's `format` applies
to the value when rendering with `:.3f`. -/
def roundHalfEven (x : ℚ) : ℤ :=
  let f := Int.floor x
  let frac := x - f
  if frac < 1 / 2 then f
  else if 1 / 2 < frac then f + 1
  else if f % 2 = 0 then f else f + 1

/-- Python `f"{score:.3f}"`: the value rounded half-even to three decimal
places, with a minus sign whenever the value itself is negative (so a tiny
negative value renders as `-0.000`). -/
def format3 (q : ℚ) : String :=
  let n := roundHalfEven (q * 1000)
  let a := n.natAbs
  let sign := if q < 0 then "-" else ""
  sign ++ toString (a / 1000) ++ "." ++ pad3 (a % 1000)

/-- One rendered chunk, `f"[Score: {score:.3f}] {text}"`. -/
def chunkWithScore (text : String) (score : ℚ) : String :=
  "[Score: " ++ format3 score ++ "] " ++ text

/-- The accumulation loop of `build_context_from_chunks`: walk the chunks in
order, keeping a running total of the lengths of the parts collected so far,
and `break` before a chunk whose rendered length would push that total over
`max_context_length`. -/
def contextParts (chunks : List (ℤ × String × ℚ)) (current_length : ℕ)
    (max_context_length : ℤ) : List String :=
  match chunks with
  | [] => []
  | (_, text, score) :: rest =>
      let part := chunkWithScore text score
      if max_context_length < (current_length : ℤ) + part.length then []
      else part :: contextParts rest (current_length + part.length) max_context_length

/-- `Retriever.build_context_from_chunks`: empty input gives `""`, otherwise
the collected parts are joined with a blank line (`"\n\n".join(...)` — the
two-character separators are *not* counted by the loop's running total). -/
def build_context_from_chunks (chunks : List (ℤ × String × ℚ))
    (max_context_length : ℤ) : String :=
  if chunks.isEmpty then ""
  else String.intercalate "\n\n" (contextParts chunks 0 max_context_length)

/-! ### Scoring functions (`EmbeddingManager`)

Float arithmetic is idealised as exact real arithmetic (the spec's own
reading of the formulas); stored float values are real numbers. The numpy
calls that raise on shape mismatch return `Except` values. -/

/-- Errors a retrieval can abort with: a failed embedder call
(`get_embedding` re-raises any Ollama failure), a failed store read, or a
numpy shape error while scoring. -/
inductive RetErr where
  | embeddingError : String → RetErr
  | storageError : String → RetErr
  | dimensionMismatch : RetErr
deriving DecidableEq

/-- `np.dot` on two 1-D arrays: the sum of pairwise products; raises
`ValueError` when the lengths differ (1-D `dot` does not broadcast). -/
def np_dot (vec1 vec2 : List ℝ) : Except RetErr ℝ :=
  if vec1.length = vec2.length then .ok (List.zipWith (· * ·) vec1 vec2).sum
  else .error .dimensionMismatch

/-- `np.linalg.norm`: the Euclidean norm, √(Σ xᵢ²). -/
noncomputable def np_norm (v : List ℝ) : ℝ :=
  Real.sqrt (v.map (fun x => x * x)).sum

/-- `np.subtract` / the `-` operator on two 1-D arrays: pairwise difference
for equal lengths; a length-1 operand broadcasts against the other; any
other length combination raises `ValueError`. -/
def np_sub (vec1 vec2 : List ℝ) : Except RetErr (List ℝ) :=
  if vec1.length = vec2.length then .ok (List.zipWith (· - ·) vec1 vec2)
  else if vec1.length = 1 then .ok (vec2.map (fun y => vec1.headI - y))
  else if vec2.length = 1 then .ok (vec1.map (fun x => x - vec2.headI))
  else .error .dimensionMismatch

/-- `EmbeddingManager.cosine_similarity`: `dot / (norm1 * norm2)`, guarded —
if either norm is zero the function returns `0.0` before dividing. -/
noncomputable def cosine_similarity (vec1 vec2 : List ℝ) : Except RetErr ℝ := do
  let dot_product ← np_dot vec1 vec2
  let norm1 := np_norm vec1
  let norm2 := np_norm vec2
  if norm1 = 0 ∨ norm2 = 0 then return 0
  else return dot_product / (norm1 * norm2)

/-- The value `cosine_similarity` produces on shape-compatible inputs. -/
noncomputable def cosineValue (vec1 vec2 : List ℝ) : ℝ :=
  if np_norm vec1 = 0 ∨ np_norm vec2 = 0 then 0
  else (List.zipWith (· * ·) vec1 vec2).sum / (np_norm vec1 * np_norm vec2)

/-- `EmbeddingManager.l2_distance`: `np.linalg.norm(vec1 - vec2)`. -/
noncomputable def l2_distance (vec1 vec2 : List ℝ) : Except RetErr ℝ := do
  let diff ← np_sub vec1 vec2
  return np_norm diff

/-! ### Python list primitives used by `Retriever` -/

/-- Python slice `lst[:k]` for an `int` bound `k`: a nonnegative `k` keeps
the first `k` elements; a negative `k` keeps all but the last `|k|`. -/
def pySlice {α : Type} (l : List α) (k : ℤ) : List α :=
  if 0 ≤ k then l.take k.toNat
  else l.take (l.length - (-k).toNat)

/-- Python `list.sort(key=lambda x: x[2], reverse=True)`: a stable sort,
descending in the third component. Modelled by insertion sort, which is
stable and sorts with respect to the chosen relation. -/
noncomputable def sortDescBy (l : List (ℤ × String × ℝ)) : List (ℤ × String × ℝ) :=
  l.insertionSort (fun a b => b.2.2 ≤ a.2.2)

/-- Python `list.sort(key=lambda x: x[2])`: a stable ascending sort. -/
noncomputable def sortAscBy (l : List (ℤ × String × ℝ)) : List (ℤ × String × ℝ) :=
  l.insertionSort (fun a b => a.2.2 ≤ b.2.2)

/-- Lookup in a Python dict built by comprehension from a pair list: later
occurrences of a key overwrite earlier ones, so `get` finds the last pair
with the key. -/
def pyDictGet {β : Type} (pairs : List (ℤ × β)) (k : ℤ) : Option β :=
  (pairs.reverse.find? (fun p => p.1 == k)).map (fun p => p.2)

/-! ### The retrieval engine (`Retriever`)

`Retriever` holds a `DatabaseManager` and an `EmbeddingManager`; the two
calls that reach outside the scored pipeline — `get_embedding(query)`
(a network call to Ollama) and `get_all_chunks()` (a store read) — enter the
model as their results: an `Except` that is either the value or the raised
error. Each `retrieve_*` body is wrapped in `try/except Exception`, which
catches every error and turns it into `[]` after logging; the `_inner`
functions below are the `try` bodies, and the outer functions apply the
blanket handler. -/

/-- A decoded chunk row as the retriever receives it from
`get_all_chunks()`. -/
structure Chunk where
  chunk_id : ℤ
  text : String
  embedding : List ℝ

/-- The scoring loop shared (in shape) by both retrieval paths: build
`(chunk_id, text, score)` rows in store order, aborting with the first
scoring error (an uncaught exception leaves the Python `for` loop at
once). -/
def scoreRows (score : Chunk → Except RetErr ℝ) :
    List Chunk → Except RetErr (List (ℤ × String × ℝ))
  | [] => .ok []
  | c :: rest => do
      let s ← score c
      let tail ← scoreRows score rest
      return (c.chunk_id, c.text, s) :: tail

/-- The scoring loop of `retrieve_similar_chunks`: cosine similarity of the
query embedding against each stored chunk embedding. -/
noncomputable def similarities_of (query_embedding : List ℝ) (chunks : List Chunk) :
    Except RetErr (List (ℤ × String × ℝ)) :=
  scoreRows (fun c => cosine_similarity query_embedding c.embedding) chunks

/-- The `try` body of `Retriever.retrieve_similar_chunks`: embed the query,
load all chunks, return `[]` for an empty store, score every chunk, sort
descending by score (stable), keep scores `≥ similarity_threshold`, and
slice to `[:top_k]`. -/
noncomputable def retrieve_similar_chunks_inner (query_embedding : Except RetErr (List ℝ))
    (all_chunks : Except RetErr (List Chunk)) (top_k : ℤ) (similarity_threshold : ℝ) :
    Except RetErr (List (ℤ × String × ℝ)) := do
  let q ← query_embedding
  let chunks ← all_chunks
  if chunks.isEmpty then
    return []
  else
    let similarities ← similarities_of q chunks
    let sorted := sortDescBy similarities
    let filtered := sorted.filter (fun x => decide (similarity_threshold ≤ x.2.2))
    return pySlice filtered top_k

/-- `Retriever.retrieve_similar_chunks`: the `try` body with the blanket
`except Exception` handler, which logs and returns `[]`. -/
noncomputable def retrieve_similar_chunks (query_embedding : Except RetErr (List ℝ))
    (all_chunks : Except RetErr (List Chunk)) (top_k : ℤ) (similarity_threshold : ℝ) :
    List (ℤ × String × ℝ) :=
  match retrieve_similar_chunks_inner query_embedding all_chunks top_k similarity_threshold with
  | .ok r => r
  | .error _ => []

/-- A float-typed threshold that may be `float('inf')`, which
`hybrid_search` passes as `max_distance`. -/
inductive PyFloatInf where
  | fin : ℝ → PyFloatInf
  | inf : PyFloatInf

/-- The comparison `distance <= max_distance` of the L2 filter; every finite
distance is `<= float('inf')`. -/
noncomputable def leDist (d : ℝ) : PyFloatInf → Bool
  | .fin m => decide (d ≤ m)
  | .inf => true

/-- The scoring loop of `retrieve_by_l2_distance`: L2 distance of the query
embedding to each stored chunk embedding. -/
noncomputable def distances_of (query_embedding : List ℝ) (chunks : List Chunk) :
    Except RetErr (List (ℤ × String × ℝ)) :=
  scoreRows (fun c => l2_distance query_embedding c.embedding) chunks

/-- The `try` body of `Retriever.retrieve_by_l2_distance`: symmetric to the
similarity path with an ascending sort and the `distance <= max_distance`
filter. -/
noncomputable def retrieve_by_l2_distance_inner (query_embedding : Except RetErr (List ℝ))
    (all_chunks : Except RetErr (List Chunk)) (top_k : ℤ) (max_distance : PyFloatInf) :
    Except RetErr (List (ℤ × String × ℝ)) := do
  let q ← query_embedding
  let chunks ← all_chunks
  if chunks.isEmpty then
    return []
  else
    let distances ← distances_of q chunks
    let sorted := sortAscBy distances
    let filtered := sorted.filter (fun x => leDist x.2.2 max_distance)
    return pySlice filtered top_k

/-- `Retriever.retrieve_by_l2_distance` with its blanket handler. -/
noncomputable def retrieve_by_l2_distance (query_embedding : Except RetErr (List ℝ))
    (all_chunks : Except RetErr (List Chunk)) (top_k : ℤ) (max_distance : PyFloatInf) :
    List (ℤ × String × ℝ) :=
  match retrieve_by_l2_distance_inner query_embedding all_chunks top_k max_distance with
  | .ok r => r
  | .error _ => []

/-- The ids `set(cosine_dict.keys()) | set(l2_dict.keys())` contains: each
id appearing in either over-fetched candidate list, once. -/
noncomputable def hybridCandidateIds (query_embedding : Except RetErr (List ℝ))
    (all_chunks : Except RetErr (List Chunk)) (top_k : ℤ) : List ℤ :=
  ((retrieve_similar_chunks query_embedding all_chunks (top_k * 2) 0).map (fun x => x.1) ++
   (retrieve_by_l2_distance query_embedding all_chunks (top_k * 2) .inf).map
     (fun x => x.1)).dedup

/-- `Retriever.hybrid_search`. Both candidate sets are over-fetched with cap
`2 * top_k` (cosine threshold `0.0`, distance threshold `float('inf')`).
The iteration order of the Python set `all_chunk_ids` is unspecified, so it
is taken as an explicit argument; theorems quantify over every enumeration
of `hybridCandidateIds`. A missing cosine entry scores `0.0`; a missing L2
entry defaults to `float('inf')`, for which
`max(0, 1 - inf/2) = max(0, -inf) = 0`. The text is resolved from the
cosine list first, then the distance list, else `""`. The enclosing
`try/except` is unreachable (no statement in the body raises), so it is not
modelled. -/
noncomputable def hybrid_search (query_embedding : Except RetErr (List ℝ))
    (all_chunks : Except RetErr (List Chunk)) (top_k : ℤ)
    (cosine_weight l2_weight : ℝ) (all_chunk_ids : List ℤ) : List (ℤ × String × ℝ) :=
  let cosine_results := retrieve_similar_chunks query_embedding all_chunks (top_k * 2) 0
  let l2_results := retrieve_by_l2_distance query_embedding all_chunks (top_k * 2) .inf
  let cosine_dict := cosine_results.map (fun x => (x.1, x.2.2))
  let l2_dict := l2_results.map (fun x => (x.1, x.2.2))
  let combined_scores := all_chunk_ids.map (fun chunk_id =>
    let cosine_score := (pyDictGet cosine_dict chunk_id).getD 0
    let l2_score : ℝ :=
      match pyDictGet l2_dict chunk_id with
      | some d => max 0 (1 - d / 2)
      | none => 0
    let combined_score := cosine_weight * cosine_score + l2_weight * l2_score
    let text :=
      match cosine_results.find? (fun x => x.1 == chunk_id) with
      | some x => x.2.1
      | none =>
          match l2_results.find? (fun x => x.1 == chunk_id) with
          | some x => x.2.1
          | none => ""
    (chunk_id, text, combined_score))
  pySlice (sortDescBy combined_scores) top_k

/-! ### Helper lemmas: the byte round-trip and row decoding -/

theorem exceptBind_ok {ε α β : Type} (a : α) (f : α → Except ε β) :
    (Except.ok a >>= f : Except ε β) = f a := rfl

theorem exceptBind_error {ε α β : Type} (e : ε) (f : α → Except ε β) :
    ((Except.error e : Except ε α) >>= f : Except ε β) = .error e := rfl

theorem decode_word_eq (w : ℕ) (hw : w < 2 ^ 32) :
    w % 256 + 256 * (w / 256 % 256) + 65536 * (w / 65536 % 256) +
      16777216 * (w / 16777216 % 256) = w := by
  omega

theorem bytesToFloats_word (w : ℕ) (rest : List ℕ) (hw : w < 2 ^ 32) :
    bytesToFloats (floatToBytes w ++ rest) =
      (bytesToFloats rest).map (fun ws => w :: ws) := by
  show bytesToFloats (w % 256 :: (w / 256 % 256) :: (w / 65536 % 256) ::
      (w / 16777216 % 256) :: rest) = _
  rw [bytesToFloats]
  cases h : bytesToFloats rest with
  | ok ws => rw [exceptBind_ok]; simp [Except.map, decode_word_eq w hw]
  | error e => rw [exceptBind_error]; simp [Except.map]

theorem bytesToFloats_embeddingToBytes (v : List ℕ) (hw : ∀ w ∈ v, w < 2 ^ 32) :
    bytesToFloats (embeddingToBytes v) = .ok v := by
  induction v with
  | nil => rfl
  | cons w ws ih =>
      rw [embeddingToBytes, bytesToFloats_word w _ (hw w (by simp)),
        ih (fun x hx => hw x (by simp [hx]))]
      rfl

theorem decodeChunkRows_append (a b : List (ℕ × ℕ × String × List ℕ)) :
    decodeChunkRows (a ++ b) =
      (decodeChunkRows a >>= fun x => decodeChunkRows b >>= fun y => pure (x ++ y)) := by
  induction a with
  | nil =>
      cases h : decodeChunkRows b <;>
        simp [decodeChunkRows, h, bind, Except.bind, pure, Except.pure]
  | cons c rest ih =>
      simp only [List.cons_append, decodeChunkRows]
      cases hc : bytesToFloats c.2.2.2 with
      | error e => simp [bind, Except.bind]
      | ok e =>
          cases hr : decodeChunkRows rest with
          | error e' => simp [ih, hr, bind, Except.bind, pure, Except.pure]
          | ok x =>
              cases hb : decodeChunkRows b <;>
                simp [ih, hr, ‹decodeChunkRows b = _›, bind, Except.bind, pure, Except.pure]

/-! ### Claim C6 — deleting a document removes all its chunks -/

/-- C6: after `delete_document d`, `get_document_chunks d` returns an empty
list and no chunk row with document id `d` remains in the store (so
`get_all_chunks` cannot return one); the chunk rows are deleted before the
document row inside one transaction. -/
theorem delete_document_removes_chunks (s : DBState) (d : ℕ) :
    get_document_chunks (delete_document s d) d = .ok [] ∧
    (delete_document s d).chunks.all (fun c => c.2.1 != d) = true := by
  constructor
  · show decodeChunkRows _ = _
    have : ((delete_document s d).chunks.filter (fun c => c.2.1 == d)) = [] := by
      apply List.filter_eq_nil_iff.mpr
      intro c hc hq
      have h2 := (List.mem_filter.mp hc).2
      rw [beq_iff_eq] at hq
      simp [hq] at h2
    rw [this]; rfl
  · simp only [delete_document, List.all_eq_true]
    intro c hc
    exact (List.mem_filter.mp hc).2

/-! ### Claim C7 — the stored embedding round-trips bit-for-bit -/

/-- C7: storing an embedding through `add_chunk` (which encodes it with
`tobytes()`) and reading the store back with `get_all_chunks` (which decodes
with `np.frombuffer`) yields exactly the stored words again, appended after
the previously visible rows. -/
theorem add_chunk_roundtrip (s : DBState) (doc_id : ℕ) (text : String) (v : List ℕ)
    (prior : List (ℕ × String × List ℕ))
    (hw : ∀ w ∈ v, w < 2 ^ 32) (hprior : get_all_chunks s = .ok prior) :
    get_all_chunks (add_chunk s doc_id text v) =
      .ok (prior ++ [(s.next_chunk_id, text, v)]) := by
  show decodeChunkRows (s.chunks ++ [(s.next_chunk_id, doc_id, text, embeddingToBytes v)]) = _
  rw [decodeChunkRows_append]
  rw [show decodeChunkRows s.chunks = .ok prior from hprior, exceptBind_ok]
  have : decodeChunkRows [(s.next_chunk_id, doc_id, text, embeddingToBytes v)] =
      .ok [(s.next_chunk_id, text, v)] := by
    show (do
      let e ← bytesToFloats (embeddingToBytes v)
      let tail ← decodeChunkRows []
      Except.ok ((s.next_chunk_id, text, e) :: tail)) = _
    rw [bytesToFloats_embeddingToBytes v hw, exceptBind_ok]
    rfl
  rw [this, exceptBind_ok]
  rfl

/-- Witness for C7 at a concrete store and vector (the two extreme float32
bit patterns and one middle one). -/
theorem add_chunk_roundtrip_witness :
    get_all_chunks (add_chunk init_database 7 "t" [0, 5, 4294967295]) =
      .ok [(1, "t", [0, 5, 4294967295])] :=
  add_chunk_roundtrip init_database 7 "t" [0, 5, 4294967295] [] (by decide) rfl

/-! ### Claim C10 — what `delete_document` leaves untouched -/

/-- C10 counterexample: the FOREIGN KEY on `chunks` is never enforced
(SQLite defaults to `foreign_keys = OFF` and the code never turns it on), so
`add_chunk` can create a chunk row whose `doc_id` matches no document row;
`delete_document` on that id then deletes the orphan chunk, so the call is
*not* a no-op even though no stored document has that id. -/
theorem delete_document_nonexistent_not_noop :
    (add_chunk init_database 99 "t" [0]).documents.all (fun doc => doc.1 != 99) = true ∧
    delete_document (add_chunk init_database 99 "t" [0]) 99 ≠
      add_chunk init_database 99 "t" [0] := by
  constructor
  · decide
  · intro h
    have := congrArg (fun st => st.chunks.length) h
    simp [delete_document, add_chunk, init_database, embeddingToBytes, floatToBytes] at this

/-- C10 (amended): `delete_document d` never touches the chat log, the id
counters, chunk rows of other documents or document rows with another id;
and it is a complete no-op (raising nothing) when no document row *and no
chunk row* carries id `d` — the extra chunk-side condition is forced by the
unenforced FOREIGN KEY, and is automatic in any store in which every chunk
belongs to an existing document. -/
theorem delete_document_frame (s : DBState) (d : ℕ) :
    (delete_document s d).chats = s.chats ∧
    (delete_document s d).next_doc_id = s.next_doc_id ∧
    (delete_document s d).next_chunk_id = s.next_chunk_id ∧
    (∀ c ∈ s.chunks, c.2.1 ≠ d → c ∈ (delete_document s d).chunks) ∧
    (∀ doc ∈ s.documents, doc.1 ≠ d → doc ∈ (delete_document s d).documents) ∧
    ((∀ doc ∈ s.documents, doc.1 ≠ d) → (∀ c ∈ s.chunks, c.2.1 ≠ d) →
      delete_document s d = s) := by
  refine ⟨rfl, rfl, rfl, ?_, ?_, ?_⟩
  · intro c hc hcd
    simp only [delete_document, List.mem_filter]
    exact ⟨hc, by simp [hcd]⟩
  · intro doc hdoc hdd
    simp only [delete_document, List.mem_filter]
    exact ⟨hdoc, by simp [hdd]⟩
  · intro hdocs hchunks
    simp only [delete_document]
    have h1 : s.chunks.filter (fun c => c.2.1 != d) = s.chunks :=
      List.filter_eq_self.mpr (fun c hc => by simp [hchunks c hc])
    have h2 : s.documents.filter (fun doc => doc.1 != d) = s.documents :=
      List.filter_eq_self.mpr (fun doc hdoc => by simp [hdocs doc hdoc])
    cases s
    simp only at h1 h2 ⊢
    rw [h1, h2]

/-- Witness for C10's amended no-op clause on a fresh store. -/
theorem delete_document_frame_witness :
    delete_document init_database 5 = init_database :=
  (delete_document_frame init_database 5).2.2.2.2.2
    (by intro doc h; cases h) (by intro c h; cases h)

/-! ### Claim C2 — the context string and its length bound -/

theorem roundHalfEven_intCast (n : ℤ) : roundHalfEven (n : ℚ) = n := by
  unfold roundHalfEven
  norm_num

theorem format3_one : format3 1 = "1.000" := by
  unfold format3
  rw [show ((1 : ℚ) * 1000) = ((1000 : ℤ) : ℚ) by norm_num, roundHalfEven_intCast]
  norm_num
  rfl

/-- C2: the code violates the bound. Two chunks rendering to 16 characters
each pass the accumulation check against `max_context_length = 32`
(`0 + 16 ≤ 32` and `16 + 16 ≤ 32`), but the `"\n\n".join` adds a separator
the running total never counted, so the returned string has length 34. -/
theorem build_context_exceeds_bound :
    build_context_from_chunks [(1, "A", 1), (2, "B", 1)] 32 =
      "[Score: 1.000] A\n\n[Score: 1.000] B" ∧
    ¬((build_context_from_chunks [(1, "A", 1), (2, "B", 1)] 32).length ≤ 32) := by
  have hA : chunkWithScore "A" 1 = "[Score: 1.000] A" := by
    rw [chunkWithScore, format3_one]
    rfl
  have hB : chunkWithScore "B" 1 = "[Score: 1.000] B" := by
    rw [chunkWithScore, format3_one]
    rfl
  have hctx : build_context_from_chunks [(1, "A", 1), (2, "B", 1)] 32 =
      "[Score: 1.000] A\n\n[Score: 1.000] B" := by
    rw [build_context_from_chunks]
    rw [if_neg (by decide)]
    rw [contextParts, hA]
    rw [if_neg (by decide)]
    rw [contextParts, hB]
    rw [if_neg (by decide)]
    rfl
  exact ⟨hctx, by rw [hctx]; decide⟩

/-! ### Helper lemmas for the scoring functions and loops -/

theorem np_dot_ok (vec1 vec2 : List ℝ) (h : vec1.length = vec2.length) :
    np_dot vec1 vec2 = .ok (List.zipWith (· * ·) vec1 vec2).sum := by
  simp [np_dot, h]

theorem np_dot_mismatch (vec1 vec2 : List ℝ) (h : vec1.length ≠ vec2.length) :
    np_dot vec1 vec2 = .error .dimensionMismatch := by
  simp [np_dot, h]

theorem cosine_similarity_ok (vec1 vec2 : List ℝ) (h : vec1.length = vec2.length) :
    cosine_similarity vec1 vec2 = .ok (cosineValue vec1 vec2) := by
  rw [cosine_similarity, np_dot_ok vec1 vec2 h, exceptBind_ok, cosineValue]
  show (if np_norm vec1 = 0 ∨ np_norm vec2 = 0 then (pure 0 : Except RetErr ℝ)
    else pure ((List.zipWith (· * ·) vec1 vec2).sum / (np_norm vec1 * np_norm vec2))) = _
  split_ifs with h0 <;> rfl

theorem cosine_similarity_mismatch (vec1 vec2 : List ℝ) (h : vec1.length ≠ vec2.length) :
    cosine_similarity vec1 vec2 = .error .dimensionMismatch := by
  rw [cosine_similarity, np_dot_mismatch vec1 vec2 h, exceptBind_error]

theorem np_sub_ok (vec1 vec2 : List ℝ) (h : vec1.length = vec2.length) :
    np_sub vec1 vec2 = .ok (List.zipWith (· - ·) vec1 vec2) := by
  simp [np_sub, h]

theorem np_sub_mismatch (vec1 vec2 : List ℝ) (h : vec1.length ≠ vec2.length)
    (h1 : vec1.length ≠ 1) (h2 : vec2.length ≠ 1) :
    np_sub vec1 vec2 = .error .dimensionMismatch := by
  rw [np_sub, if_neg h, if_neg h1, if_neg h2]

theorem l2_distance_ok (vec1 vec2 : List ℝ) (h : vec1.length = vec2.length) :
    l2_distance vec1 vec2 = .ok (np_norm (List.zipWith (· - ·) vec1 vec2)) := by
  rw [l2_distance, np_sub_ok vec1 vec2 h, exceptBind_ok]
  rfl

theorem l2_distance_mismatch (vec1 vec2 : List ℝ) (h : vec1.length ≠ vec2.length)
    (h1 : vec1.length ≠ 1) (h2 : vec2.length ≠ 1) :
    l2_distance vec1 vec2 = .error .dimensionMismatch := by
  rw [l2_distance, np_sub_mismatch vec1 vec2 h h1 h2, exceptBind_error]

theorem scoreRows_ok (score : Chunk → Except RetErr ℝ) (val : Chunk → ℝ)
    (cs : List Chunk) (h : ∀ c ∈ cs, score c = .ok (val c)) :
    scoreRows score cs = .ok (cs.map (fun c => (c.chunk_id, c.text, val c))) := by
  induction cs with
  | nil => rfl
  | cons c rest ih =>
      rw [scoreRows, h c (by simp), exceptBind_ok,
        ih (fun x hx => h x (by simp [hx])), exceptBind_ok]
      rfl

theorem scoreRows_error (score : Chunk → Except RetErr ℝ) (cs : List Chunk)
    (h : ∃ c ∈ cs, ∃ e, score c = .error e) :
    ∃ e, scoreRows score cs = .error e := by
  induction cs with
  | nil => simp at h
  | cons c rest ih =>
      cases hc : score c with
      | error e => exact ⟨e, by rw [scoreRows, hc, exceptBind_error]⟩
      | ok v =>
          obtain ⟨c', hc', e', he'⟩ := h
          rcases List.mem_cons.mp hc' with rfl | hmem
          · rw [hc] at he'; cases he'
          · obtain ⟨e, he⟩ := ih ⟨c', hmem, e', he'⟩
            exact ⟨e, by rw [scoreRows, hc, exceptBind_ok, he, exceptBind_error]⟩

/-! ### Claim C9 — the cosine similarity formula and its zero guard -/

/-- C9: on shape-compatible vectors, `cosine_similarity` returns
`dot / (‖a‖ * ‖b‖)`, and whenever either norm is exactly zero it returns
`0.0` without dividing. (The unguarded formula also evaluates to `0` in the
zero-norm case only because Lean defines `x / 0 = 0`; the second conjunct
states the guard the code actually takes.) -/
theorem cosine_similarity_spec (a b : List ℝ) (h : a.length = b.length) :
    cosine_similarity a b =
      .ok ((List.zipWith (· * ·) a b).sum / (np_norm a * np_norm b)) ∧
    ((np_norm a = 0 ∨ np_norm b = 0) → cosine_similarity a b = .ok 0) := by
  rw [cosine_similarity_ok a b h, cosineValue]
  constructor
  · split_ifs with h0
    · rcases h0 with h0 | h0 <;> rw [h0] <;> simp
    · rfl
  · intro h0
    rw [if_pos h0]

/-- Witness for C9: the nonzero vector `[3, 4]` against the zero vector. -/
theorem cosine_similarity_spec_witness :
    cosine_similarity [3, 4] [0, 0] = .ok 0 :=
  (cosine_similarity_spec [3, 4] [0, 0] rfl).2 (Or.inr (by
    show Real.sqrt _ = 0
    norm_num))

/-! ### Helper lemmas for the retrieval pipelines -/

theorem pySlice_nil {α : Type} (k : ℤ) : pySlice ([] : List α) k = [] := by
  rw [pySlice]; split_ifs <;> exact List.take_nil

theorem pySlice_zero {α : Type} (l : List α) : pySlice l 0 = [] := by
  rw [pySlice, if_pos le_rfl]; rfl

theorem pySlice_nonneg {α : Type} (l : List α) (k : ℤ) (h : 0 ≤ k) :
    pySlice l k = l.take k.toNat := by
  rw [pySlice, if_pos h]

theorem pySlice_all {α : Type} (l : List α) (k : ℤ) (h : 0 ≤ k)
    (hl : (l.length : ℤ) ≤ k) : pySlice l k = l := by
  rw [pySlice_nonneg l k h]
  exact List.take_of_length_le (by omega)

theorem retrieve_similar_chunks_inner_shape (q : List ℝ) (cs : List Chunk) (k : ℤ)
    (th : ℝ) (sims : List (ℤ × String × ℝ)) (hne : cs ≠ [])
    (hs : similarities_of q cs = .ok sims) :
    retrieve_similar_chunks_inner (.ok q) (.ok cs) k th =
      .ok (pySlice ((sortDescBy sims).filter (fun x => decide (th ≤ x.2.2))) k) := by
  cases cs with
  | nil => exact absurd rfl hne
  | cons c rest =>
      rw [retrieve_similar_chunks_inner, exceptBind_ok, exceptBind_ok]
      rw [if_neg (by simp)]
      rw [hs, exceptBind_ok]
      rfl

theorem retrieve_similar_chunks_inner_scoring_error (q : List ℝ) (cs : List Chunk)
    (k : ℤ) (th : ℝ) (er : RetErr) (hne : cs ≠ [])
    (hs : similarities_of q cs = .error er) :
    retrieve_similar_chunks_inner (.ok q) (.ok cs) k th = .error er := by
  cases cs with
  | nil => exact absurd rfl hne
  | cons c rest =>
      rw [retrieve_similar_chunks_inner, exceptBind_ok, exceptBind_ok]
      rw [if_neg (by simp)]
      rw [hs, exceptBind_error]

theorem retrieve_by_l2_distance_inner_shape (q : List ℝ) (cs : List Chunk) (k : ℤ)
    (md : PyFloatInf) (dists : List (ℤ × String × ℝ)) (hne : cs ≠ [])
    (hd : distances_of q cs = .ok dists) :
    retrieve_by_l2_distance_inner (.ok q) (.ok cs) k md =
      .ok (pySlice ((sortAscBy dists).filter (fun x => leDist x.2.2 md)) k) := by
  cases cs with
  | nil => exact absurd rfl hne
  | cons c rest =>
      rw [retrieve_by_l2_distance_inner, exceptBind_ok, exceptBind_ok]
      rw [if_neg (by simp)]
      rw [hd, exceptBind_ok]
      rfl

theorem retrieve_by_l2_distance_inner_scoring_error (q : List ℝ) (cs : List Chunk)
    (k : ℤ) (md : PyFloatInf) (er : RetErr) (hne : cs ≠ [])
    (hd : distances_of q cs = .error er) :
    retrieve_by_l2_distance_inner (.ok q) (.ok cs) k md = .error er := by
  cases cs with
  | nil => exact absurd rfl hne
  | cons c rest =>
      rw [retrieve_by_l2_distance_inner, exceptBind_ok, exceptBind_ok]
      rw [if_neg (by simp)]
      rw [hd, exceptBind_error]

theorem retrieve_similar_chunks_of_inner_ok (qe : Except RetErr (List ℝ))
    (ce : Except RetErr (List Chunk)) (k : ℤ) (th : ℝ) (r : List (ℤ × String × ℝ))
    (h : retrieve_similar_chunks_inner qe ce k th = .ok r) :
    retrieve_similar_chunks qe ce k th = r := by
  rw [retrieve_similar_chunks, h]

theorem retrieve_similar_chunks_of_inner_error (qe : Except RetErr (List ℝ))
    (ce : Except RetErr (List Chunk)) (k : ℤ) (th : ℝ) (er : RetErr)
    (h : retrieve_similar_chunks_inner qe ce k th = .error er) :
    retrieve_similar_chunks qe ce k th = [] := by
  rw [retrieve_similar_chunks, h]

theorem retrieve_by_l2_distance_of_inner_ok (qe : Except RetErr (List ℝ))
    (ce : Except RetErr (List Chunk)) (k : ℤ) (md : PyFloatInf)
    (r : List (ℤ × String × ℝ))
    (h : retrieve_by_l2_distance_inner qe ce k md = .ok r) :
    retrieve_by_l2_distance qe ce k md = r := by
  rw [retrieve_by_l2_distance, h]

theorem retrieve_by_l2_distance_of_inner_error (qe : Except RetErr (List ℝ))
    (ce : Except RetErr (List Chunk)) (k : ℤ) (md : PyFloatInf) (er : RetErr)
    (h : retrieve_by_l2_distance_inner qe ce k md = .error er) :
    retrieve_by_l2_distance qe ce k md = [] := by
  rw [retrieve_by_l2_distance, h]

theorem retrieve_similar_chunks_embed_error (e : RetErr)
    (ce : Except RetErr (List Chunk)) (k : ℤ) (th : ℝ) :
    retrieve_similar_chunks (.error e) ce k th = [] := rfl

theorem retrieve_similar_chunks_store_error (qe : Except RetErr (List ℝ))
    (e : RetErr) (k : ℤ) (th : ℝ) :
    retrieve_similar_chunks qe (.error e) k th = [] := by
  cases qe <;> rfl

theorem retrieve_by_l2_distance_embed_error (e : RetErr)
    (ce : Except RetErr (List Chunk)) (k : ℤ) (md : PyFloatInf) :
    retrieve_by_l2_distance (.error e) ce k md = [] := rfl

theorem retrieve_by_l2_distance_store_error (qe : Except RetErr (List ℝ))
    (e : RetErr) (k : ℤ) (md : PyFloatInf) :
    retrieve_by_l2_distance qe (.error e) k md = [] := by
  cases qe <;> rfl

theorem retrieve_similar_chunks_empty_store (qe : Except RetErr (List ℝ))
    (k : ℤ) (th : ℝ) :
    retrieve_similar_chunks qe (.ok []) k th = [] := by
  cases qe <;> rfl

theorem retrieve_by_l2_distance_empty_store (qe : Except RetErr (List ℝ))
    (k : ℤ) (md : PyFloatInf) :
    retrieve_by_l2_distance qe (.ok []) k md = [] := by
  cases qe <;> rfl

theorem hybrid_search_of_ids_nil (qe : Except RetErr (List ℝ))
    (ce : Except RetErr (List Chunk)) (k : ℤ) (cw lw : ℝ) :
    hybrid_search qe ce k cw lw [] = [] := by
  rw [hybrid_search]
  show pySlice (sortDescBy []) k = []
  rw [show sortDescBy [] = [] from rfl, pySlice_nil]

theorem hybrid_search_empty_of (qe : Except RetErr (List ℝ))
    (ce : Except RetErr (List Chunk)) (k : ℤ) (cw lw : ℝ) (ids : List ℤ)
    (h1 : retrieve_similar_chunks qe ce (k * 2) 0 = [])
    (h2 : retrieve_by_l2_distance qe ce (k * 2) .inf = [])
    (hids : ids.Perm (hybridCandidateIds qe ce k)) :
    hybrid_search qe ce k cw lw ids = [] := by
  have hcand : hybridCandidateIds qe ce k = [] := by
    rw [hybridCandidateIds, h1, h2]; rfl
  rw [hcand] at hids
  rw [hids.eq_nil]
  exact hybrid_search_of_ids_nil qe ce k cw lw

theorem retrieve_similar_chunks_zero (qe : Except RetErr (List ℝ))
    (ce : Except RetErr (List Chunk)) (th : ℝ) :
    retrieve_similar_chunks qe ce 0 th = [] := by
  cases qe with
  | error e => rfl
  | ok q =>
      cases ce with
      | error e => rfl
      | ok cs =>
          cases cs with
          | nil => rfl
          | cons c rest =>
              cases hs : similarities_of q (c :: rest) with
              | error er =>
                  exact retrieve_similar_chunks_of_inner_error _ _ _ _ er
                    (retrieve_similar_chunks_inner_scoring_error q _ 0 th er (by simp) hs)
              | ok sims =>
                  rw [retrieve_similar_chunks_of_inner_ok _ _ _ _ _
                    (retrieve_similar_chunks_inner_shape q _ 0 th sims (by simp) hs)]
                  exact pySlice_zero _

theorem retrieve_by_l2_distance_zero (qe : Except RetErr (List ℝ))
    (ce : Except RetErr (List Chunk)) (md : PyFloatInf) :
    retrieve_by_l2_distance qe ce 0 md = [] := by
  cases qe with
  | error e => rfl
  | ok q =>
      cases ce with
      | error e => rfl
      | ok cs =>
          cases cs with
          | nil => rfl
          | cons c rest =>
              cases hd : distances_of q (c :: rest) with
              | error er =>
                  exact retrieve_by_l2_distance_of_inner_error _ _ _ _ er
                    (retrieve_by_l2_distance_inner_scoring_error q _ 0 md er (by simp) hd)
              | ok dists =>
                  rw [retrieve_by_l2_distance_of_inner_ok _ _ _ _ _
                    (retrieve_by_l2_distance_inner_shape q _ 0 md dists (by simp) hd)]
                  exact pySlice_zero _

theorem hybrid_search_zero (qe : Except RetErr (List ℝ))
    (ce : Except RetErr (List Chunk)) (cw lw : ℝ) (ids : List ℤ) :
    hybrid_search qe ce 0 cw lw ids = [] := by
  rw [hybrid_search]
  exact pySlice_zero _

/-! ### Claim C8 — embedder/store failures degrade to an empty result -/

/-- C8: whenever the query-embedding call raises, or the store read raises,
each of the three retrieval operations catches the failure (logging it) and
returns `[]` — never a partial result and never a propagated exception.
`ids1`/`ids2` range over every possible iteration order of the hybrid
candidate set. -/
theorem retrieval_failure_yields_empty (e : RetErr) (qe : Except RetErr (List ℝ))
    (ce : Except RetErr (List Chunk)) (k : ℤ) (th : ℝ) (md : PyFloatInf)
    (cw lw : ℝ) (ids1 ids2 : List ℤ)
    (hids1 : ids1.Perm (hybridCandidateIds (.error e) ce k))
    (hids2 : ids2.Perm (hybridCandidateIds qe (.error e) k)) :
    retrieve_similar_chunks (.error e) ce k th = [] ∧
    retrieve_by_l2_distance (.error e) ce k md = [] ∧
    hybrid_search (.error e) ce k cw lw ids1 = [] ∧
    retrieve_similar_chunks qe (.error e) k th = [] ∧
    retrieve_by_l2_distance qe (.error e) k md = [] ∧
    hybrid_search qe (.error e) k cw lw ids2 = [] :=
  ⟨retrieve_similar_chunks_embed_error e ce k th,
   retrieve_by_l2_distance_embed_error e ce k md,
   hybrid_search_empty_of _ _ k cw lw ids1
     (retrieve_similar_chunks_embed_error e ce (k * 2) 0)
     (retrieve_by_l2_distance_embed_error e ce (k * 2) .inf) hids1,
   retrieve_similar_chunks_store_error qe e k th,
   retrieve_by_l2_distance_store_error qe e k md,
   hybrid_search_empty_of _ _ k cw lw ids2
     (retrieve_similar_chunks_store_error qe e (k * 2) 0)
     (retrieve_by_l2_distance_store_error qe e (k * 2) .inf) hids2⟩

/-- Witness for C8: a concrete embedder failure against a concrete store. -/
theorem retrieval_failure_yields_empty_witness :
    hybrid_search (.error (.embeddingError "ollama down")) (.ok []) 3 (7 / 10) (3 / 10) [] = [] :=
  (retrieval_failure_yields_empty (.embeddingError "ollama down") (.ok [])
    (.ok []) 3 0 (.fin 2) (7 / 10) (3 / 10) [] [] (List.Perm.refl [])
    (List.Perm.refl [])).2.2.1

/-! ### Claim C4 — `top_k` and empty-store edge cases -/

/-- C4 (amended): all three operations return `[]` when `top_k = 0` and when
the store is empty (for any `top_k`), with no error in either case. The
original claim's further case `top_k < 0` is false — see the
counterexample — because Python's `lst[:top_k]` drops `|top_k|` trailing
elements instead of returning `[]`. -/
theorem retrieval_edge_cases (qe : Except RetErr (List ℝ))
    (ce : Except RetErr (List Chunk)) (th : ℝ) (md : PyFloatInf) (cw lw : ℝ)
    (k : ℤ) (ids : List ℤ) (hids : ids.Perm (hybridCandidateIds qe (.ok []) k)) :
    retrieve_similar_chunks qe ce 0 th = [] ∧
    retrieve_by_l2_distance qe ce 0 md = [] ∧
    (∀ ids0 : List ℤ, hybrid_search qe ce 0 cw lw ids0 = []) ∧
    retrieve_similar_chunks qe (.ok []) k th = [] ∧
    retrieve_by_l2_distance qe (.ok []) k md = [] ∧
    hybrid_search qe (.ok []) k cw lw ids = [] :=
  ⟨retrieve_similar_chunks_zero qe ce th,
   retrieve_by_l2_distance_zero qe ce md,
   fun ids0 => hybrid_search_zero qe ce cw lw ids0,
   retrieve_similar_chunks_empty_store qe k th,
   retrieve_by_l2_distance_empty_store qe k md,
   hybrid_search_empty_of _ _ k cw lw ids
     (retrieve_similar_chunks_empty_store qe (k * 2) 0)
     (retrieve_by_l2_distance_empty_store qe (k * 2) .inf) hids⟩

/-- Witness for C4 on concrete inputs (empty store, `top_k = 7`). -/
theorem retrieval_edge_cases_witness :
    hybrid_search (.ok [1, 0]) (.ok []) 7 (7 / 10) (3 / 10) [] = [] :=
  (retrieval_edge_cases (.ok [1, 0]) (.ok []) 0 (.fin 2) (7 / 10) (3 / 10) 7 []
    (List.Perm.refl [])).2.2.2.2.2

/-! ### Claim C3 — dimension mismatches do NOT propagate -/

/-- C3 (amended): a dimension mismatch between the query embedding and a
stored embedding makes `np.dot` (resp. the array subtraction) raise inside
the scoring loop, so the `try` body aborts with the error — but the blanket
`except Exception` of `retrieve_similar_chunks` / `retrieve_by_l2_distance`
catches it like any other failure: the caller sees `[]`, not the error.
(For the L2 path a length-1 operand broadcasts instead of raising, hence
the extra length conditions.) -/
theorem dimension_mismatch_swallowed (q : List ℝ) (cs : List Chunk) (k : ℤ)
    (th : ℝ) (md : PyFloatInf)
    (hcos : ∃ c ∈ cs, c.embedding.length ≠ q.length) :
    (∃ er, retrieve_similar_chunks_inner (.ok q) (.ok cs) k th = .error er) ∧
    retrieve_similar_chunks (.ok q) (.ok cs) k th = [] ∧
    ((∃ c ∈ cs, c.embedding.length ≠ q.length ∧ q.length ≠ 1 ∧ c.embedding.length ≠ 1) →
      (∃ er, retrieve_by_l2_distance_inner (.ok q) (.ok cs) k md = .error er) ∧
      retrieve_by_l2_distance (.ok q) (.ok cs) k md = []) := by
  obtain ⟨c0, hc0, hlen⟩ := hcos
  have hne : cs ≠ [] := List.ne_nil_of_mem hc0
  have hsim : ∃ er, similarities_of q cs = .error er := by
    simp only [similarities_of]
    exact scoreRows_error _ cs
      ⟨c0, hc0, .dimensionMismatch, cosine_similarity_mismatch _ _ (Ne.symm hlen)⟩
  obtain ⟨er, her⟩ := hsim
  refine ⟨⟨er, retrieve_similar_chunks_inner_scoring_error q cs k th er hne her⟩,
    retrieve_similar_chunks_of_inner_error _ _ _ _ er
      (retrieve_similar_chunks_inner_scoring_error q cs k th er hne her), ?_⟩
  rintro ⟨c1, hc1, hl, hq1, hc1len⟩
  have hdist : ∃ er2, distances_of q cs = .error er2 := by
    simp only [distances_of]
    exact scoreRows_error _ cs
      ⟨c1, hc1, .dimensionMismatch, l2_distance_mismatch _ _ (Ne.symm hl) hq1 hc1len⟩
  obtain ⟨er2, her2⟩ := hdist
  exact ⟨⟨er2, retrieve_by_l2_distance_inner_scoring_error q cs k md er2 hne her2⟩,
    retrieve_by_l2_distance_of_inner_error _ _ _ _ er2
      (retrieve_by_l2_distance_inner_scoring_error q cs k md er2 hne her2)⟩

/-- Witness for C3's amended claim: a 3-dimensional stored embedding against
a 2-dimensional query embedding is swallowed into an empty result. -/
theorem dimension_mismatch_swallowed_witness :
    retrieve_similar_chunks (.ok [1, 0]) (.ok [⟨7, "y", [2, 3, 4]⟩]) 3 0 = [] :=
  (dimension_mismatch_swallowed [1, 0] [⟨7, "y", [2, 3, 4]⟩] 3 0 (.fin 2)
    ⟨⟨7, "y", [2, 3, 4]⟩, List.mem_singleton.mpr rfl, by decide⟩).2.1

/-- C3 counterexample: at a concrete mismatched store the `try` body of each
retrieval operation raises a dimension mismatch, yet the operation itself
returns `[]` — the error is caught, not propagated to the caller as the
claim states. -/
theorem dimension_mismatch_caught_concrete :
    retrieve_similar_chunks_inner (.ok [1, 0]) (.ok [⟨1, "x", [1, 0, 0]⟩]) 5 (1 / 2) =
      .error .dimensionMismatch ∧
    retrieve_similar_chunks (.ok [1, 0]) (.ok [⟨1, "x", [1, 0, 0]⟩]) 5 (1 / 2) = [] ∧
    retrieve_by_l2_distance_inner (.ok [1, 0]) (.ok [⟨1, "x", [1, 0, 0]⟩]) 5 (.fin 2) =
      .error .dimensionMismatch ∧
    retrieve_by_l2_distance (.ok [1, 0]) (.ok [⟨1, "x", [1, 0, 0]⟩]) 5 (.fin 2) = [] := by
  have hsim : similarities_of [1, 0] [⟨1, "x", [1, 0, 0]⟩] = .error .dimensionMismatch := by
    simp only [similarities_of, scoreRows]
    rw [cosine_similarity_mismatch _ _ (by decide), exceptBind_error]
  have hdist : distances_of [1, 0] [⟨1, "x", [1, 0, 0]⟩] = .error .dimensionMismatch := by
    simp only [distances_of, scoreRows]
    rw [l2_distance_mismatch _ _ (by decide) (by decide) (by decide), exceptBind_error]
  have h1 := retrieve_similar_chunks_inner_scoring_error [1, 0] _ 5 (1 / 2)
    .dimensionMismatch (by simp) hsim
  have h2 := retrieve_by_l2_distance_inner_scoring_error [1, 0] _ 5 (.fin 2)
    .dimensionMismatch (by simp) hdist
  exact ⟨h1, retrieve_similar_chunks_of_inner_error _ _ _ _ _ h1, h2,
    retrieve_by_l2_distance_of_inner_error _ _ _ _ _ h2⟩

/-- C4 counterexample: with `top_k = -1` and two in-range chunks, Python's
`filtered_results[:-1]` keeps the first of the two results, so the operation
returns a nonempty list although the claim demands `[]` for every
`top_k ≤ 0`. -/
theorem negative_topk_not_empty :
    retrieve_by_l2_distance (.ok [1, 0])
      (.ok [⟨1, "a", [1, 0]⟩, ⟨2, "b", [1, 0]⟩]) (-1) (.fin 2) = [(1, "a", 0)] ∧
    retrieve_by_l2_distance (.ok [1, 0])
      (.ok [⟨1, "a", [1, 0]⟩, ⟨2, "b", [1, 0]⟩]) (-1) (.fin 2) ≠ [] := by
  have hl2 : l2_distance ([1, 0] : List ℝ) [1, 0] = .ok 0 := by
    rw [l2_distance_ok _ _ rfl]
    congr 1
    show np_norm [(1 : ℝ) - 1, 0 - 0] = 0
    rw [show [(1 : ℝ) - 1, 0 - 0] = [0, 0] by norm_num]
    rw [np_norm]
    norm_num
  have hrows : distances_of [1, 0] [⟨1, "a", [1, 0]⟩, ⟨2, "b", [1, 0]⟩] =
      .ok [(1, "a", 0), (2, "b", 0)] := by
    simp only [distances_of]
    rw [scoreRows_ok _ (fun _ => 0) _ ?_]
    · rfl
    · intro c hc
      rcases List.mem_cons.mp hc with rfl | hc2
      · exact hl2
      · rcases List.mem_cons.mp hc2 with rfl | hc3
        · exact hl2
        · cases hc3
  have hshape := retrieve_by_l2_distance_inner_shape [1, 0] _ (-1) (.fin 2) _
    (by simp) hrows
  have hsort : sortAscBy [(1, "a", (0 : ℝ)), (2, "b", 0)] = [(1, "a", 0), (2, "b", 0)] := by
    simp [sortAscBy, List.insertionSort, List.orderedInsert]
  have hfilt : List.filter (fun x => leDist x.2.2 (.fin 2))
      ([((1 : ℤ), "a", (0 : ℝ)), (2, "b", 0)]) = [(1, "a", 0), (2, "b", 0)] := by
    simp only [List.filter, leDist]
    norm_num
  have hslice : pySlice [((1 : ℤ), "a", (0 : ℝ)), (2, "b", 0)] (-1) = [(1, "a", 0)] := by
    rw [pySlice, if_neg (by norm_num)]
    rfl
  have hres : retrieve_by_l2_distance (.ok [1, 0])
      (.ok [⟨1, "a", [1, 0]⟩, ⟨2, "b", [1, 0]⟩]) (-1) (.fin 2) = [(1, "a", 0)] := by
    rw [retrieve_by_l2_distance_of_inner_ok _ _ _ _ _ hshape, hsort, hfilt]
    exact hslice
  exact ⟨hres, by rw [hres]; simp⟩

/-! ### Stability of the modelled Python sort -/

theorem filter_orderedInsert_of_ne {α : Type} (r : α → α → Prop) [DecidableRel r]
    (key : α → ℝ) (x : α) (l : List α) (s : ℝ) (hx : key x ≠ s) :
    (l.orderedInsert r x).filter (fun y => decide (key y = s)) =
      l.filter (fun y => decide (key y = s)) := by
  induction l with
  | nil => simp [List.orderedInsert, hx]
  | cons b t ih =>
      rw [List.orderedInsert]
      split_ifs with h
      · rw [List.filter_cons_of_neg (by simp [hx])]
      · rw [List.filter_cons, List.filter_cons, ih]

theorem filter_orderedInsert_of_eq {α : Type} (r : α → α → Prop) [DecidableRel r]
    (key : α → ℝ) (x : α) (l : List α) (hr : ∀ y, ¬r x y → key y ≠ key x) :
    (l.orderedInsert r x).filter (fun y => decide (key y = key x)) =
      x :: l.filter (fun y => decide (key y = key x)) := by
  induction l with
  | nil => simp [List.orderedInsert]
  | cons b t ih =>
      rw [List.orderedInsert]
      split_ifs with h
      · rw [List.filter_cons_of_pos (by simp)]
      · have hb : key b ≠ key x := hr b h
        rw [List.filter_cons_of_neg (by simp [hb]), ih,
          List.filter_cons_of_neg (by simp [hb])]

theorem filter_insertionSort_eq {α : Type} (r : α → α → Prop) [DecidableRel r]
    (key : α → ℝ) (hr : ∀ x y, ¬r x y → key y ≠ key x) (l : List α) (s : ℝ) :
    (l.insertionSort r).filter (fun y => decide (key y = s)) =
      l.filter (fun y => decide (key y = s)) := by
  induction l with
  | nil => rfl
  | cons x t ih =>
      rw [List.insertionSort]
      by_cases hx : key x = s
      · subst hx
        rw [filter_orderedInsert_of_eq r key x _ (hr x), ih,
          List.filter_cons_of_pos (by simp)]
      · rw [filter_orderedInsert_of_ne r key x _ s hx, ih,
          List.filter_cons_of_neg (by simp [hx])]

theorem filter_take_eq_take_filter {α : Type} (p : α → Bool) (l : List α) (m : ℕ) :
    ∃ n, (l.take m).filter p = (l.filter p).take n := by
  induction l generalizing m with
  | nil => exact ⟨0, by simp⟩
  | cons x t ih =>
      cases m with
      | zero => exact ⟨0, by simp⟩
      | succ m' =>
          obtain ⟨n, hn⟩ := ih m'
          cases hp : p x
          · refine ⟨n, ?_⟩
            rw [List.take_succ_cons, List.filter_cons_of_neg (by simp [hp]),
              List.filter_cons_of_neg (by simp [hp]), hn]
          · refine ⟨n + 1, ?_⟩
            rw [List.take_succ_cons, List.filter_cons_of_pos (by simp [hp]),
              List.filter_cons_of_pos (by simp [hp]), List.take_succ_cons, hn]

/-! ### Claim C1 — shape of a `retrieve_similar_chunks` result -/

theorem filter_sortDescBy_eq (l : List (ℤ × String × ℝ)) (s : ℝ) :
    (sortDescBy l).filter (fun x => decide (x.2.2 = s)) =
      l.filter (fun x => decide (x.2.2 = s)) := by
  show (l.insertionSort (fun a b => b.2.2 ≤ a.2.2)).filter
      (fun x => decide (x.2.2 = s)) = _
  exact filter_insertionSort_eq (fun a b => b.2.2 ≤ a.2.2) (fun x => x.2.2)
    (fun x y h => ne_of_gt (lt_of_not_le h)) l s

theorem sorted_pipeline_props (sims : List (ℤ × String × ℝ)) (k : ℤ) (th : ℝ)
    (hk : 0 ≤ k) :
    (∀ x ∈ pySlice ((sortDescBy sims).filter (fun x => decide (th ≤ x.2.2))) k,
      th ≤ x.2.2) ∧
    (pySlice ((sortDescBy sims).filter (fun x => decide (th ≤ x.2.2))) k).Pairwise
      (fun a b => b.2.2 ≤ a.2.2) ∧
    (((pySlice ((sortDescBy sims).filter (fun x => decide (th ≤ x.2.2))) k).length : ℤ) ≤ k) ∧
    (∀ s : ℝ, ∃ n,
      (pySlice ((sortDescBy sims).filter (fun x => decide (th ≤ x.2.2))) k).filter
          (fun x => decide (x.2.2 = s)) =
        (sims.filter (fun x => decide (x.2.2 = s))).take n) := by
  haveI ht : IsTotal (ℤ × String × ℝ) (fun a b => b.2.2 ≤ a.2.2) :=
    ⟨fun a b => le_total b.2.2 a.2.2⟩
  haveI htr : IsTrans (ℤ × String × ℝ) (fun a b => b.2.2 ≤ a.2.2) :=
    ⟨fun a b c h1 h2 => le_trans h2 h1⟩
  have hsorted : (sortDescBy sims).Pairwise (fun a b => b.2.2 ≤ a.2.2) :=
    List.sorted_insertionSort _ sims
  have hsub : List.Sublist
      (pySlice ((sortDescBy sims).filter (fun x => decide (th ≤ x.2.2))) k)
      ((sortDescBy sims).filter (fun x => decide (th ≤ x.2.2))) := by
    rw [pySlice_nonneg _ _ hk]
    exact List.take_sublist _ _
  refine ⟨?_, ?_, ?_, ?_⟩
  · intro x hx
    have hx' := hsub.subset hx
    exact of_decide_eq_true (List.mem_filter.mp hx').2
  · exact hsorted.sublist (hsub.trans (List.filter_sublist _))
  · rw [pySlice_nonneg _ _ hk]
    have := List.length_take_le k.toNat
      ((sortDescBy sims).filter (fun x => decide (th ≤ x.2.2)))
    omega
  · intro s
    by_cases hts : th ≤ s
    · rw [pySlice_nonneg _ _ hk]
      obtain ⟨n, hn⟩ := filter_take_eq_take_filter (fun x => decide (x.2.2 = s))
        ((sortDescBy sims).filter (fun x => decide (th ≤ x.2.2))) k.toNat
      refine ⟨n, ?_⟩
      rw [hn]
      have hmerge : ((sortDescBy sims).filter (fun x => decide (th ≤ x.2.2))).filter
          (fun x => decide (x.2.2 = s)) =
          (sortDescBy sims).filter (fun x => decide (x.2.2 = s)) := by
        rw [List.filter_filter]
        apply List.filter_congr
        intro a _
        cases hd : decide (a.2.2 = s) with
        | false => simp [hd]
        | true =>
            have := of_decide_eq_true hd
            simp [hd, this, hts]
      rw [hmerge, filter_sortDescBy_eq sims s]
    · refine ⟨0, ?_⟩
      rw [List.take_zero]
      apply List.filter_eq_nil_iff.mpr
      intro x hx hxs
      have hx' := hsub.subset hx
      have hth := of_decide_eq_true (List.mem_filter.mp hx').2
      have hxs' := of_decide_eq_true hxs
      exact hts (hxs' ▸ hth)

/-- C1 (amended): for every embedder result, store state, threshold and
every `top_k ≥ 0`, the result of `retrieve_similar_chunks` contains only
scores `≥ similarity_threshold`, is sorted descending by score, has at most
`top_k` entries, and within each equal-score class it is an order-preserving
prefix of the scored rows in original store order (stable sort, no secondary
key). The restriction `top_k ≥ 0` is forced by the counterexample: for a
negative `top_k`, Python's `[:top_k]` keeps `len - |top_k|` leading entries,
so the length bound fails. -/
theorem retrieve_similar_chunks_spec (qe : Except RetErr (List ℝ))
    (ce : Except RetErr (List Chunk)) (top_k : ℤ) (th : ℝ) (htop : 0 ≤ top_k) :
    (∀ x ∈ retrieve_similar_chunks qe ce top_k th, th ≤ x.2.2) ∧
    (retrieve_similar_chunks qe ce top_k th).Pairwise (fun a b => b.2.2 ≤ a.2.2) ∧
    (((retrieve_similar_chunks qe ce top_k th).length : ℤ) ≤ top_k) ∧
    (∀ q cs sims, qe = .ok q → ce = .ok cs → similarities_of q cs = .ok sims →
      ∀ s : ℝ, ∃ n,
        (retrieve_similar_chunks qe ce top_k th).filter (fun x => decide (x.2.2 = s)) =
          (sims.filter (fun x => decide (x.2.2 = s))).take n) := by
  have base : retrieve_similar_chunks qe ce top_k th = [] →
      ((∀ x ∈ retrieve_similar_chunks qe ce top_k th, th ≤ x.2.2) ∧
       (retrieve_similar_chunks qe ce top_k th).Pairwise (fun a b => b.2.2 ≤ a.2.2) ∧
       (((retrieve_similar_chunks qe ce top_k th).length : ℤ) ≤ top_k) ∧
       (∀ q cs sims, qe = .ok q → ce = .ok cs → similarities_of q cs = .ok sims →
         ∀ s : ℝ, ∃ n,
           (retrieve_similar_chunks qe ce top_k th).filter (fun x => decide (x.2.2 = s)) =
             (sims.filter (fun x => decide (x.2.2 = s))).take n)) := by
    intro hr0
    refine ⟨?_, ?_, ?_, ?_⟩
    · intro x hx; rw [hr0] at hx; cases hx
    · rw [hr0]; exact List.Pairwise.nil
    · rw [hr0]; simpa using htop
    · intro q cs sims _ _ _ s
      exact ⟨0, by rw [hr0]; simp⟩
  cases qe with
  | error e => exact base (retrieve_similar_chunks_embed_error e ce top_k th)
  | ok q =>
      cases ce with
      | error e => exact base (retrieve_similar_chunks_store_error _ e top_k th)
      | ok cs =>
          cases cs with
          | nil => exact base (retrieve_similar_chunks_empty_store _ top_k th)
          | cons c rest =>
              cases hs : similarities_of q (c :: rest) with
              | error er =>
                  exact base (retrieve_similar_chunks_of_inner_error _ _ _ _ er
                    (retrieve_similar_chunks_inner_scoring_error q _ top_k th er
                      (by simp) hs))
              | ok sims0 =>
                  have hres : retrieve_similar_chunks (.ok q) (.ok (c :: rest)) top_k th =
                      pySlice ((sortDescBy sims0).filter
                        (fun x => decide (th ≤ x.2.2))) top_k :=
                    retrieve_similar_chunks_of_inner_ok _ _ _ _ _
                      (retrieve_similar_chunks_inner_shape q _ top_k th sims0
                        (by simp) hs)
                  rw [hres]
                  obtain ⟨p1, p2, p3, p4⟩ := sorted_pipeline_props sims0 top_k th htop
                  refine ⟨p1, p2, p3, ?_⟩
                  intro q' cs' sims h1 h2 h3 s
                  injection h1 with h1
                  injection h2 with h2
                  subst h1; subst h2
                  have : sims = sims0 := by
                    rw [h3] at hs
                    exact Except.ok.inj hs
                  subst this
                  exact p4 s

/-- Witness for C1 at a concrete store with one chunk and `top_k = 1`
(projecting the length bound). -/
theorem retrieve_similar_chunks_spec_witness :
    ((retrieve_similar_chunks (.ok [1, 0]) (.ok [⟨1, "a", [1, 0]⟩]) 1 0).length : ℤ) ≤ 1 :=
  (retrieve_similar_chunks_spec (.ok [1, 0]) (.ok [⟨1, "a", [1, 0]⟩]) 1 0
    (by norm_num)).2.2.1

/-- C1 counterexample: with `top_k = -1` and two chunks passing the
threshold, `filtered_results[:-1]` keeps one entry, so the result's length
(1) is not `≤ top_k = -1`; the claim's length bound fails for a negative
`top_k`. -/
theorem similar_negative_topk_breaks_bound :
    retrieve_similar_chunks (.ok [1, 0])
      (.ok [⟨1, "a", [1, 0]⟩, ⟨2, "b", [1, 0]⟩]) (-1) (1 / 2) = [(1, "a", 1)] ∧
    ¬(((retrieve_similar_chunks (.ok [1, 0])
      (.ok [⟨1, "a", [1, 0]⟩, ⟨2, "b", [1, 0]⟩]) (-1) (1 / 2)).length : ℤ) ≤ -1) := by
  have hnorm : np_norm [(1 : ℝ), 0] = 1 := by
    rw [np_norm]
    rw [show ((([(1 : ℝ), 0]).map (fun x => x * x)).sum) = 1 by simp]
    exact Real.sqrt_one
  have hcos : cosine_similarity ([1, 0] : List ℝ) [1, 0] = .ok 1 := by
    rw [cosine_similarity_ok _ _ rfl, cosineValue, if_neg (by rw [hnorm]; norm_num)]
    congr 1
    rw [hnorm]
    show ([(1 : ℝ) * 1, 0 * 0]).sum / (1 * 1) = 1
    norm_num
  have hrows : similarities_of [1, 0] [⟨1, "a", [1, 0]⟩, ⟨2, "b", [1, 0]⟩] =
      .ok [(1, "a", 1), (2, "b", 1)] := by
    simp only [similarities_of]
    rw [scoreRows_ok _ (fun _ => 1) _ ?_]
    · rfl
    · intro c hc
      rcases List.mem_cons.mp hc with rfl | hc2
      · exact hcos
      · rcases List.mem_cons.mp hc2 with rfl | hc3
        · exact hcos
        · cases hc3
  have hsort : sortDescBy [((1 : ℤ), "a", (1 : ℝ)), (2, "b", 1)] =
      [(1, "a", 1), (2, "b", 1)] := by
    simp [sortDescBy, List.insertionSort, List.orderedInsert]
  have hfilt : List.filter (fun x => decide ((1 : ℝ) / 2 ≤ x.2.2))
      ([((1 : ℤ), "a", (1 : ℝ)), (2, "b", 1)]) = [(1, "a", 1), (2, "b", 1)] := by
    simp only [List.filter]
    norm_num
  have hslice : pySlice [((1 : ℤ), "a", (1 : ℝ)), (2, "b", 1)] (-1) = [(1, "a", 1)] := by
    rw [pySlice, if_neg (by norm_num)]
    rfl
  have hres : retrieve_similar_chunks (.ok [1, 0])
      (.ok [⟨1, "a", [1, 0]⟩, ⟨2, "b", [1, 0]⟩]) (-1) (1 / 2) = [(1, "a", 1)] := by
    rw [retrieve_similar_chunks_of_inner_ok _ _ _ _ _
      (retrieve_similar_chunks_inner_shape [1, 0] _ (-1) (1 / 2) _ (by simp) hrows),
      hsort, hfilt]
    exact hslice
  exact ⟨hres, by rw [hres]; norm_num⟩

/-! ### Claim C5 — hybrid search with weights (1, 0) -/

theorem find?_eq_of_nodup_keys {β : Type} (P : List (ℤ × β))
    (hk : (P.map (fun p => p.1)).Nodup) (p : ℤ × β) (hp : p ∈ P) :
    P.find? (fun x => x.1 == p.1) = some p := by
  induction P with
  | nil => cases hp
  | cons a t ih =>
      by_cases ha : a.1 = p.1
      · have hpa : p = a := by
          rcases List.mem_cons.mp hp with h' | hpt
          · exact h'
          · exfalso
            have hmem : p.1 ∈ t.map (fun p => p.1) := List.mem_map.mpr ⟨p, hpt, rfl⟩
            rw [← ha] at hmem
            exact (List.nodup_cons.mp hk).1 hmem
        subst hpa
        rw [List.find?_cons_of_pos _ (by simp)]
      · have hpt : p ∈ t := by
          rcases List.mem_cons.mp hp with h' | hpt
          · exact absurd (h' ▸ rfl) ha
          · exact hpt
        rw [List.find?_cons_of_neg _ (by simp [ha]), ih (List.nodup_cons.mp hk).2 hpt]

theorem pyDictGet_eq_of_nodup_keys {β : Type} (P : List (ℤ × β))
    (hk : (P.map (fun p => p.1)).Nodup) (p : ℤ × β) (hp : p ∈ P) :
    pyDictGet P p.1 = some p.2 := by
  rw [pyDictGet, find?_eq_of_nodup_keys P.reverse
    (by rw [List.map_reverse]; exact (List.nodup_reverse.mpr hk)) p
    (List.mem_reverse.mpr hp)]
  rfl

theorem sorted_desc_nodup_unique (l1 l2 : List (ℤ × String × ℝ))
    (hperm : l1.Perm l2)
    (h1 : l1.Pairwise (fun a b => b.2.2 ≤ a.2.2))
    (h2 : l2.Pairwise (fun a b => b.2.2 ≤ a.2.2))
    (hnd : (l1.map (fun x => x.2.2)).Nodup) : l1 = l2 := by
  haveI : IsAntisymm (ℤ × String × ℝ) (fun a b => b.2.2 < a.2.2) :=
    ⟨fun a b hab hba => absurd (lt_trans hab hba) (lt_irrefl _)⟩
  have hnd2 : (l2.map (fun x => x.2.2)).Nodup := ((hperm.map _).nodup_iff).mp hnd
  have hs1 : l1.Pairwise (fun a b => b.2.2 < a.2.2) := by
    have hne : l1.Pairwise (fun a b => a.2.2 ≠ b.2.2) := List.pairwise_map.mp hnd
    exact (h1.and hne).imp (fun h => lt_of_le_of_ne h.1 (Ne.symm h.2))
  have hs2 : l2.Pairwise (fun a b => b.2.2 < a.2.2) := by
    have hne : l2.Pairwise (fun a b => a.2.2 ≠ b.2.2) := List.pairwise_map.mp hnd2
    exact (h2.and hne).imp (fun h => lt_of_le_of_ne h.1 (Ne.symm h.2))
  exact List.eq_of_perm_of_sorted hperm hs1 hs2

theorem hybrid_search_eval (qe : Except RetErr (List ℝ))
    (ce : Except RetErr (List Chunk)) (k : ℤ) (cw lw : ℝ) (ids : List ℤ)
    (cres l2res : List (ℤ × String × ℝ))
    (h1 : retrieve_similar_chunks qe ce (k * 2) 0 = cres)
    (h2 : retrieve_by_l2_distance qe ce (k * 2) .inf = l2res) :
    hybrid_search qe ce k cw lw ids =
      pySlice (sortDescBy (ids.map (fun chunk_id =>
        (chunk_id,
         (match cres.find? (fun x => x.1 == chunk_id) with
          | some x => x.2.1
          | none =>
              match l2res.find? (fun x => x.1 == chunk_id) with
              | some x => x.2.1
              | none => ""),
         cw * ((pyDictGet (cres.map (fun x => (x.1, x.2.2))) chunk_id).getD 0) +
           lw * (match pyDictGet (l2res.map (fun x => (x.1, x.2.2))) chunk_id with
            | some d => max 0 (1 - d / 2)
            | none => 0))))) k := by
  subst h1
  subst h2
  rfl

theorem sortDescBy_perm (l : List (ℤ × String × ℝ)) : (sortDescBy l).Perm l :=
  List.perm_insertionSort _ l

theorem sortDescBy_pairwise (l : List (ℤ × String × ℝ)) :
    (sortDescBy l).Pairwise (fun a b => b.2.2 ≤ a.2.2) := by
  haveI : IsTotal (ℤ × String × ℝ) (fun a b => b.2.2 ≤ a.2.2) :=
    ⟨fun a b => le_total b.2.2 a.2.2⟩
  haveI : IsTrans (ℤ × String × ℝ) (fun a b => b.2.2 ≤ a.2.2) :=
    ⟨fun a b c h1 h2 => le_trans h2 h1⟩
  exact List.sorted_insertionSort _ l

theorem sortAscBy_perm (l : List (ℤ × String × ℝ)) : (sortAscBy l).Perm l :=
  List.perm_insertionSort _ l

/-- C5 (amended): when every stored chunk embedding matches the query's
dimension, chunk ids are distinct (as the database guarantees), every
cosine score is nonnegative, the cosine scores are pairwise distinct, and
the store holds at most `2 * top_k` chunks (so both over-fetched candidate
sets are the whole store and their union is the same candidate set),
`hybrid_search` with `cosine_weight = 1, l2_weight = 0` returns exactly the
result of `retrieve_similar_chunks` with threshold `0` — for every
iteration order of the candidate-id set. Nonnegativity is forced by the
counterexample (a negative-cosine chunk is ranked by the hybrid with
combined score `0.0` but dropped by the threshold-`0` retrieval);
distinctness is forced because a Python `set`'s iteration order is
unspecified, so equal combined scores may be ordered arbitrarily. -/
theorem hybrid_matches_similarity (q : List ℝ) (cs : List Chunk) (k : ℤ)
    (si : List ℤ)
    (hlen : ∀ c ∈ cs, c.embedding.length = q.length)
    (hnodup : (cs.map (fun c => c.chunk_id)).Nodup)
    (hpos : ∀ c ∈ cs, 0 ≤ cosineValue q c.embedding)
    (hdistinct : (cs.map (fun c => cosineValue q c.embedding)).Nodup)
    (hk : 0 ≤ k) (hsize : (cs.length : ℤ) ≤ 2 * k)
    (hsi : si.Perm (hybridCandidateIds (.ok q) (.ok cs) k)) :
    hybrid_search (.ok q) (.ok cs) k 1 0 si =
      retrieve_similar_chunks (.ok q) (.ok cs) k 0 := by
  by_cases hecs : cs = []
  · subst hecs
    rw [retrieve_similar_chunks_empty_store _ k 0]
    exact hybrid_search_empty_of _ _ k 1 0 si
      (retrieve_similar_chunks_empty_store _ (k * 2) 0)
      (retrieve_by_l2_distance_empty_store _ (k * 2) .inf) hsi
  · have hne : cs ≠ [] := hecs
    -- the scored rows in store order
    set L := cs.map (fun c => (c.chunk_id, c.text, cosineValue q c.embedding)) with hL
    set M := cs.map
      (fun c => (c.chunk_id, c.text, np_norm (List.zipWith (· - ·) q c.embedding))) with hM
    have hrows : similarities_of q cs = .ok L := by
      simp only [similarities_of, hL]
      exact scoreRows_ok _ _ cs
        (fun c hc => cosine_similarity_ok _ _ (hlen c hc).symm)
    have hdrows : distances_of q cs = .ok M := by
      simp only [distances_of, hM]
      exact scoreRows_ok _ _ cs
        (fun c hc => l2_distance_ok _ _ (hlen c hc).symm)
    have hLpos : ∀ x ∈ L, (0 : ℝ) ≤ x.2.2 := by
      intro x hx
      obtain ⟨c, hc, rfl⟩ := List.mem_map.mp hx
      exact hpos c hc
    have hLkeys : (L.map (fun p => p.1)).Nodup := by
      rw [hL, List.map_map]
      exact hnodup
    have hLscores : (L.map (fun x => x.2.2)).Nodup := by
      rw [hL, List.map_map]
      exact hdistinct
    have hDfilter : (sortDescBy L).filter (fun x => decide ((0 : ℝ) ≤ x.2.2)) =
        sortDescBy L :=
      List.filter_eq_self.mpr
        (fun x hx => decide_eq_true (hLpos x ((sortDescBy_perm L).subset hx)))
    have hDlen : ((sortDescBy L).length : ℤ) ≤ k * 2 := by
      rw [(sortDescBy_perm L).length_eq, hL, List.length_map]
      omega
    have hAfilter : (sortAscBy M).filter (fun x => leDist x.2.2 .inf) = sortAscBy M :=
      List.filter_eq_self.mpr (fun x _ => rfl)
    have hAlen : ((sortAscBy M).length : ℤ) ≤ k * 2 := by
      rw [(sortAscBy_perm M).length_eq, hM, List.length_map]
      omega
    have hcres : retrieve_similar_chunks (.ok q) (.ok cs) (k * 2) 0 = sortDescBy L := by
      rw [retrieve_similar_chunks_of_inner_ok _ _ _ _ _
        (retrieve_similar_chunks_inner_shape q cs (k * 2) 0 L hne hrows),
        hDfilter, pySlice_all _ _ (by omega) hDlen]
    have hl2res : retrieve_by_l2_distance (.ok q) (.ok cs) (k * 2) .inf = sortAscBy M := by
      rw [retrieve_by_l2_distance_of_inner_ok _ _ _ _ _
        (retrieve_by_l2_distance_inner_shape q cs (k * 2) .inf M hne hdrows),
        hAfilter, pySlice_all _ _ (by omega) hAlen]
    have hres_sim : retrieve_similar_chunks (.ok q) (.ok cs) k 0 =
        pySlice (sortDescBy L) k := by
      rw [retrieve_similar_chunks_of_inner_ok _ _ _ _ _
        (retrieve_similar_chunks_inner_shape q cs k 0 L hne hrows), hDfilter]
    -- the candidate-id set is exactly the set of stored chunk ids
    have hmemU : ∀ i : ℤ, i ∈ hybridCandidateIds (.ok q) (.ok cs) k ↔
        i ∈ cs.map (fun c => c.chunk_id) := by
      intro i
      rw [hybridCandidateIds, hcres, hl2res, List.mem_dedup, List.mem_append]
      constructor
      · rintro (h | h)
        · have := ((sortDescBy_perm L).map (fun x => x.1)).subset h
          rw [hL, List.map_map] at this
          exact this
        · have := ((sortAscBy_perm M).map (fun x => x.1)).subset h
          rw [hM, List.map_map] at this
          exact this
      · intro h
        left
        have : i ∈ L.map (fun x => x.1) := by
          rw [hL, List.map_map]
          exact h
        exact (((sortDescBy_perm L).map (fun x => x.1)).symm.subset) this
    have hsi' : si.Perm (cs.map (fun c => c.chunk_id)) := by
      refine hsi.trans ?_
      refine (List.perm_ext_iff_of_nodup (List.nodup_dedup _) hnodup).mpr ?_
      intro i
      exact hmemU i
    -- evaluate the hybrid body
    rw [hybrid_search_eval (.ok q) (.ok cs) k 1 0 si (sortDescBy L) (sortAscBy M)
      hcres hl2res, hres_sim]
    suffices h : ∀ f : ℤ → (ℤ × String × ℝ),
        (∀ c ∈ cs, f c.chunk_id = (c.chunk_id, c.text, cosineValue q c.embedding)) →
        sortDescBy (si.map f) = sortDescBy L by
      rw [h _ ?_]
      intro c hc
      have hDkeys : ((sortDescBy L).map (fun p => p.1)).Nodup :=
        (((sortDescBy_perm L).map (fun p => p.1)).nodup_iff).mpr hLkeys
      have hmemD : (c.chunk_id, c.text, cosineValue q c.embedding) ∈ sortDescBy L :=
        ((sortDescBy_perm L).symm.subset) (List.mem_map.mpr ⟨c, hc, rfl⟩)
      have hfind : (sortDescBy L).find? (fun x => x.1 == c.chunk_id) =
          some (c.chunk_id, c.text, cosineValue q c.embedding) :=
        find?_eq_of_nodup_keys _ hDkeys _ hmemD
      have hget : pyDictGet ((sortDescBy L).map (fun x => (x.1, x.2.2))) c.chunk_id =
          some (cosineValue q c.embedding) := by
        refine pyDictGet_eq_of_nodup_keys _ ?_
          (c.chunk_id, cosineValue q c.embedding)
          (List.mem_map.mpr ⟨(c.chunk_id, c.text, cosineValue q c.embedding), hmemD, rfl⟩)
        rw [List.map_map]
        exact hDkeys
      rw [hfind, hget]
      simp
    -- uniqueness of the sorted order under distinct scores
    intro f hf
    have hcomp : (cs.map (fun c => c.chunk_id)).map f = L := by
      rw [List.map_map, hL]
      exact List.map_congr_left (fun c hc => hf c hc)
    have hperm1 : (si.map f).Perm L := hcomp ▸ (hsi'.map f)
    have hpermSort : (sortDescBy (si.map f)).Perm (sortDescBy L) :=
      ((List.perm_insertionSort _ (si.map f)).trans hperm1).trans
        (sortDescBy_perm L).symm
    have hndSort : ((sortDescBy (si.map f)).map (fun x => x.2.2)).Nodup :=
      ((((List.perm_insertionSort _ (si.map f)).trans hperm1).map
        (fun x => x.2.2)).nodup_iff).mpr hLscores
    exact sorted_desc_nodup_unique _ _ hpermSort
      (sortDescBy_pairwise _) (sortDescBy_pairwise _) hndSort

theorem np_norm_pair (a b : ℝ) : np_norm [a, b] = Real.sqrt (a * a + b * b) := by
  rw [np_norm]
  norm_num

theorem np_norm_10 : np_norm [(1 : ℝ), 0] = 1 := by
  rw [np_norm_pair]
  norm_num

theorem np_norm_01 : np_norm [(0 : ℝ), 1] = 1 := by
  rw [np_norm_pair]
  norm_num

theorem np_norm_neg10 : np_norm [(-1 : ℝ), 0] = 1 := by
  rw [np_norm_pair]
  norm_num

theorem np_norm_20 : np_norm [(2 : ℝ), 0] = 2 := by
  rw [np_norm_pair]
  rw [show (2 : ℝ) * 2 + 0 * 0 = 2 ^ 2 by norm_num]
  exact Real.sqrt_sq (by norm_num)

theorem np_norm_00 : np_norm [(0 : ℝ), 0] = 0 := by
  rw [np_norm_pair]
  norm_num

theorem cosineValue_10_10 : cosineValue [(1 : ℝ), 0] [1, 0] = 1 := by
  rw [cosineValue, if_neg (by rw [np_norm_10]; norm_num), np_norm_10]
  show ([(1 : ℝ) * 1, 0 * 0]).sum / (1 * 1) = 1
  norm_num

theorem cosineValue_10_01 : cosineValue [(1 : ℝ), 0] [0, 1] = 0 := by
  rw [cosineValue, if_neg (by rw [np_norm_10, np_norm_01]; norm_num), np_norm_10, np_norm_01]
  show ([(1 : ℝ) * 0, 0 * 1]).sum / (1 * 1) = 0
  norm_num

theorem cosineValue_10_neg10 : cosineValue [(1 : ℝ), 0] [-1, 0] = -1 := by
  rw [cosineValue, if_neg (by rw [np_norm_10, np_norm_neg10]; norm_num), np_norm_10,
    np_norm_neg10]
  show ([(1 : ℝ) * -1, 0 * 0]).sum / (1 * 1) = -1
  norm_num

/-- Witness for C5 at a concrete two-chunk store with distinct nonnegative
cosine scores, `top_k = 1`, and the candidate set enumerated in its
canonical order. -/
theorem hybrid_matches_similarity_witness :
    hybrid_search (.ok [1, 0]) (.ok [⟨1, "a", [1, 0]⟩, ⟨2, "b", [0, 1]⟩]) 1 1 0
      (hybridCandidateIds (.ok [1, 0]) (.ok [⟨1, "a", [1, 0]⟩, ⟨2, "b", [0, 1]⟩]) 1) =
      retrieve_similar_chunks (.ok [1, 0])
        (.ok [⟨1, "a", [1, 0]⟩, ⟨2, "b", [0, 1]⟩]) 1 0 := by
  apply hybrid_matches_similarity
  · intro c hc
    rcases List.mem_cons.mp hc with rfl | hc2
    · rfl
    · rcases List.mem_cons.mp hc2 with rfl | hc3
      · rfl
      · cases hc3
  · decide
  · intro c hc
    rcases List.mem_cons.mp hc with rfl | hc2
    · show (0 : ℝ) ≤ cosineValue [1, 0] [1, 0]
      rw [cosineValue_10_10]; norm_num
    · rcases List.mem_cons.mp hc2 with rfl | hc3
      · show (0 : ℝ) ≤ cosineValue [1, 0] [0, 1]
        rw [cosineValue_10_01]
      · cases hc3
  · simp [cosineValue_10_10, cosineValue_10_01]
  · norm_num
  · simp
  · exact List.Perm.refl _

/-- C5 counterexample: a chunk with negative cosine score (`[-1, 0]` against
query `[1, 0]`) is excluded from the cosine candidate dict by the
threshold-`0` over-fetch, so the hybrid assigns it combined score
`1 * 0.0 + 0 * l2 = 0` and still *ranks* it (second), while
`retrieve_similar_chunks` with threshold `0` on the same candidate set
returns only the nonnegative chunk: the two rankings differ. The first
conjunct shows `[2, 1]` is a legitimate enumeration of the candidate-id
set shared by both calls. -/
theorem hybrid_weight10_differs_from_similarity :
    [2, 1].Perm (hybridCandidateIds (.ok [1, 0])
      (.ok [⟨1, "neg", [-1, 0]⟩, ⟨2, "pos", [1, 0]⟩]) 2) ∧
    hybrid_search (.ok [1, 0])
      (.ok [⟨1, "neg", [-1, 0]⟩, ⟨2, "pos", [1, 0]⟩]) 2 1 0 [2, 1] =
      [(2, "pos", 1), (1, "neg", 0)] ∧
    retrieve_similar_chunks (.ok [1, 0])
      (.ok [⟨1, "neg", [-1, 0]⟩, ⟨2, "pos", [1, 0]⟩]) 2 0 = [(2, "pos", 1)] := by
  have hl2a : l2_distance ([1, 0] : List ℝ) [-1, 0] = .ok 2 := by
    rw [l2_distance_ok [1, 0] [-1, 0] rfl]
    congr 1
    show np_norm [(1 : ℝ) - -1, 0 - 0] = 2
    rw [show [(1 : ℝ) - -1, 0 - 0] = [2, 0] by norm_num]
    exact np_norm_20
  have hl2b : l2_distance ([1, 0] : List ℝ) [1, 0] = .ok 0 := by
    rw [l2_distance_ok [1, 0] [1, 0] rfl]
    congr 1
    show np_norm [(1 : ℝ) - 1, 0 - 0] = 0
    rw [show [(1 : ℝ) - 1, 0 - 0] = [0, 0] by norm_num]
    exact np_norm_00
  have hrows : similarities_of [1, 0] [⟨1, "neg", [-1, 0]⟩, ⟨2, "pos", [1, 0]⟩] =
      .ok [(1, "neg", -1), (2, "pos", 1)] := by
    simp only [similarities_of]
    rw [scoreRows_ok _ (fun c => cosineValue [1, 0] c.embedding) _ ?_]
    · simp [cosineValue_10_neg10, cosineValue_10_10]
    · intro c hc
      rcases List.mem_cons.mp hc with rfl | hc2
      · exact cosine_similarity_ok _ _ rfl
      · rcases List.mem_cons.mp hc2 with rfl | hc3
        · exact cosine_similarity_ok _ _ rfl
        · cases hc3
  have hdrows : distances_of [1, 0] [⟨1, "neg", [-1, 0]⟩, ⟨2, "pos", [1, 0]⟩] =
      .ok [(1, "neg", 2), (2, "pos", 0)] := by
    simp only [distances_of, scoreRows]
    rw [show l2_distance [1, 0]
      ({ chunk_id := 1, text := "neg", embedding := [-1, 0] } : Chunk).embedding =
        .ok 2 from hl2a, exceptBind_ok]
    rw [show l2_distance [1, 0]
      ({ chunk_id := 2, text := "pos", embedding := [1, 0] } : Chunk).embedding =
        .ok 0 from hl2b, exceptBind_ok]
    rfl
  have hsortC : sortDescBy [((1 : ℤ), "neg", (-1 : ℝ)), (2, "pos", 1)] =
      [(2, "pos", 1), (1, "neg", -1)] := by
    norm_num [sortDescBy, List.insertionSort, List.orderedInsert]
  have hfiltC : List.filter (fun x => decide ((0 : ℝ) ≤ x.2.2))
      [((2 : ℤ), "pos", (1 : ℝ)), (1, "neg", -1)] = [(2, "pos", 1)] := by
    simp only [List.filter]
    norm_num
  have hcres : retrieve_similar_chunks (.ok [1, 0])
      (.ok [⟨1, "neg", [-1, 0]⟩, ⟨2, "pos", [1, 0]⟩]) (2 * 2) 0 = [(2, "pos", 1)] := by
    rw [retrieve_similar_chunks_of_inner_ok _ _ _ _ _
      (retrieve_similar_chunks_inner_shape [1, 0] _ (2 * 2) 0 _ (by simp) hrows),
      hsortC, hfiltC]
    rfl
  have hsortA : sortAscBy [((1 : ℤ), "neg", (2 : ℝ)), (2, "pos", 0)] =
      [(2, "pos", 0), (1, "neg", 2)] := by
    norm_num [sortAscBy, List.insertionSort, List.orderedInsert]
  have hfiltA : List.filter (fun x => leDist x.2.2 .inf)
      [((2 : ℤ), "pos", (0 : ℝ)), (1, "neg", 2)] = [(2, "pos", 0), (1, "neg", 2)] :=
    List.filter_eq_self.mpr (fun x _ => rfl)
  have hl2res : retrieve_by_l2_distance (.ok [1, 0])
      (.ok [⟨1, "neg", [-1, 0]⟩, ⟨2, "pos", [1, 0]⟩]) (2 * 2) .inf =
      [(2, "pos", 0), (1, "neg", 2)] := by
    rw [retrieve_by_l2_distance_of_inner_ok _ _ _ _ _
      (retrieve_by_l2_distance_inner_shape [1, 0] _ (2 * 2) .inf _ (by simp) hdrows),
      hsortA, hfiltA]
    rfl
  refine ⟨?_, ?_, ?_⟩
  · rw [hybridCandidateIds, hcres, hl2res]
    simp only [List.map]
    decide
  · rw [hybrid_search_eval (.ok [1, 0]) _ 2 1 0 [2, 1] _ _ hcres hl2res]
    norm_num [pyDictGet, List.find?, sortDescBy, List.insertionSort, List.orderedInsert,
      pySlice, show ((2 : ℤ) == 1) = false from rfl]
  · rw [retrieve_similar_chunks_of_inner_ok _ _ _ _ _
      (retrieve_similar_chunks_inner_shape [1, 0] _ 2 0 _ (by simp) hrows),
      hsortC, hfiltC]
    rfl
